import Mathlib

/-!
Shallow embedding of the `MCPClient` orchestration core of the
mcp-client-browser repository (source: `src/unnamed/part_000`, from which
`src/src/client/browser-sse.ts` is an earlier near-identical variant).

Modelling conventions:
* Machine strings are Lean `String`s; JS arrays of messages are Lean lists.
* The external completion primitive, the tool-call primitive and the
  per-connection tool-listing primitive are abstracted as oracles supplied
  in an environment record: the claims quantify over "every fixed sequence
  of model response texts and tool-call outcomes".
* JS `JSON.parse` / `JSON.stringify` are modelled by an executable JSON
  parser / serializer over a `Json` inductive.
* The regular-expression extraction of `extractToolUses` is modelled by a
  small backtracking matcher for the exact three patterns of the source,
  with JS lazy-capture and global-scan semantics.
-/

/-- Roles of chat messages (`MessageContent.role` in
`src/types/mcp-sseclient.ts`). -/
inductive Role where
  | system
  | user
  | assistant
deriving DecidableEq, Repr

/-- A typed text block, as pushed for tool results:
`{ type: "text", text: ... }`. -/
structure TextBlock where
  type : String
  text : String
deriving DecidableEq, Repr

/-- Message content: either a plain string or an ordered list of typed
text blocks (the `T` of `MessageContent<T>`). -/
inductive MsgContent where
  | str (s : String)
  | blocks (bs : List TextBlock)
deriving DecidableEq, Repr

/-- A chat message (`MessageContent` of `src/types/mcp-sseclient.ts`). -/
structure MessageContent where
  role : Role
  content : MsgContent
deriving DecidableEq, Repr

def sysMsg (s : String) : MessageContent := ⟨Role.system, MsgContent.str s⟩
def userMsg (s : String) : MessageContent := ⟨Role.user, MsgContent.str s⟩
def assistantMsg (s : String) : MessageContent := ⟨Role.assistant, MsgContent.str s⟩

/-- Character class of the JS regex `\s` (also the set removed by
`String.prototype.trim`): ASCII whitespace, NBSP, the Unicode space
separators, line/paragraph separators and the BOM. -/
def isJsSpace (c : Char) : Bool :=
  c = ' ' || c = '\t' || c = '\n' || c = '\r' ||
  c = Char.ofNat 0x0b || c = Char.ofNat 0x0c || c = Char.ofNat 0xa0 ||
  c = Char.ofNat 0x1680 ||
  (0x2000 ≤ c.toNat && c.toNat ≤ 0x200a) ||
  c = Char.ofNat 0x2028 || c = Char.ofNat 0x2029 || c = Char.ofNat 0x202f ||
  c = Char.ofNat 0x205f || c = Char.ofNat 0x3000 || c = Char.ofNat 0xfeff

/-- JS `String.prototype.trim` on a character list. -/
def jsTrimList (l : List Char) : List Char :=
  ((l.dropWhile isJsSpace).reverse.dropWhile isJsSpace).reverse

/-- JS `String.prototype.trim`. -/
def jsTrim (s : String) : String :=
  (jsTrimList s.toList).asString

/-- JSON values, the result type of the modelled `JSON.parse`.
Numbers are represented exactly as rationals. -/
inductive Json where
  | null
  | bool (b : Bool)
  | num (q : Rat)
  | str (s : String)
  | arr (xs : List Json)
  | obj (kvs : List (String × Json))

namespace JsonParse

/-- JSON insignificant whitespace (RFC 8259 / `JSON.parse`). -/
def isJsonWs (c : Char) : Bool :=
  c = ' ' || c = '\t' || c = '\n' || c = '\r'

def skipWs (l : List Char) : List Char := l.dropWhile isJsonWs

def hexVal (c : Char) : Option Nat :=
  if '0' ≤ c ∧ c ≤ '9' then some (c.toNat - '0'.toNat)
  else if 'a' ≤ c ∧ c ≤ 'f' then some (c.toNat - 'a'.toNat + 10)
  else if 'A' ≤ c ∧ c ≤ 'F' then some (c.toNat - 'A'.toNat + 10)
  else none

/-- Parse the body of a JSON string literal (after the opening quote),
handling the escape sequences of `JSON.parse`. -/
def parseStringBody : List Char → Option (List Char × List Char)
  | [] => none
  | '"' :: rest => some ([], rest)
  | '\\' :: e :: rest =>
    match e with
    | '"' => (parseStringBody rest).map (fun p => ('"' :: p.1, p.2))
    | '\\' => (parseStringBody rest).map (fun p => ('\\' :: p.1, p.2))
    | '/' => (parseStringBody rest).map (fun p => ('/' :: p.1, p.2))
    | 'b' => (parseStringBody rest).map (fun p => (Char.ofNat 8 :: p.1, p.2))
    | 'f' => (parseStringBody rest).map (fun p => (Char.ofNat 12 :: p.1, p.2))
    | 'n' => (parseStringBody rest).map (fun p => ('\n' :: p.1, p.2))
    | 'r' => (parseStringBody rest).map (fun p => ('\r' :: p.1, p.2))
    | 't' => (parseStringBody rest).map (fun p => ('\t' :: p.1, p.2))
    | 'u' =>
      match rest with
      | a :: b :: c :: d :: rest' =>
        match hexVal a, hexVal b, hexVal c, hexVal d with
        | some x, some y, some z, some w =>
          (parseStringBody rest').map
            (fun p => (Char.ofNat (((x * 16 + y) * 16 + z) * 16 + w) :: p.1, p.2))
        | _, _, _, _ => none
      | _ => none
    | _ => none
  | c :: rest =>
    -- JSON.parse rejects raw control characters inside strings
    if c.toNat < 0x20 then none
    else (parseStringBody rest).map (fun p => (c :: p.1, p.2))

def isDigit (c : Char) : Bool := '0' ≤ c && c ≤ '9'

def digitsToNat (ds : List Char) : Nat :=
  ds.foldl (fun acc c => acc * 10 + (c.toNat - '0'.toNat)) 0

/-- Parse a JSON number literal: `-? int frac? exp?`, value as a rational. -/
def parseNumber (l : List Char) : Option (Rat × List Char) :=
  let (negSign, l1) :=
    match l with
    | '-' :: r => (true, r)
    | _ => (false, l)
  let intDigits := l1.takeWhile isDigit
  let l2 := l1.dropWhile isDigit
  -- JSON: the integer part is `0` or starts with a nonzero digit
  if intDigits = [] then none
  else if intDigits.length > 1 ∧ intDigits.headD '0' = '0' then none
  else
    let (fracDigits, l3) :=
      match l2 with
      | '.' :: r =>
        (r.takeWhile isDigit, r.dropWhile isDigit)
      | _ => ([], l2)
    if l2 ≠ l3 ∧ fracDigits = [] then none
    else
      let expPart : Option (Bool × List Char × List Char) :=
        match l3 with
        | 'e' :: '+' :: r => some (false, r.takeWhile isDigit, r.dropWhile isDigit)
        | 'e' :: '-' :: r => some (true, r.takeWhile isDigit, r.dropWhile isDigit)
        | 'e' :: r => some (false, r.takeWhile isDigit, r.dropWhile isDigit)
        | 'E' :: '+' :: r => some (false, r.takeWhile isDigit, r.dropWhile isDigit)
        | 'E' :: '-' :: r => some (true, r.takeWhile isDigit, r.dropWhile isDigit)
        | 'E' :: r => some (false, r.takeWhile isDigit, r.dropWhile isDigit)
        | _ => none
      let finish (expNeg : Bool) (expDigits : List Char) (l4 : List Char) :
          Option (Rat × List Char) :=
        let mantissa : Int := Int.ofNat (digitsToNat (intDigits ++ fracDigits))
        let mantissa := if negSign then -mantissa else mantissa
        let e : Int := (if expNeg then -(Int.ofNat (digitsToNat expDigits))
                        else Int.ofNat (digitsToNat expDigits)) - fracDigits.length
        let q : Rat :=
          if 0 ≤ e then mkRat (mantissa * (10 : Int) ^ e.toNat) 1
          else mkRat mantissa ((10 : Nat) ^ (-e).toNat)
        some (q, l4)
      match expPart with
      | none => finish false [] l3
      | some (expNeg, expDigits, l4) =>
        if expDigits = [] then none else finish expNeg expDigits l4

mutual

/-- Parse one JSON value (fuel-bounded; `fuel` at least the input length
always suffices, as every recursive call consumes input). -/
def parseVal : Nat → List Char → Option (Json × List Char)
  | 0, _ => none
  | fuel + 1, l =>
    match skipWs l with
    | 'n' :: 'u' :: 'l' :: 'l' :: rest => some (Json.null, rest)
    | 't' :: 'r' :: 'u' :: 'e' :: rest => some (Json.bool true, rest)
    | 'f' :: 'a' :: 'l' :: 's' :: 'e' :: rest => some (Json.bool false, rest)
    | '"' :: rest =>
      (parseStringBody rest).map (fun p => (Json.str p.1.asString, p.2))
    | '[' :: rest =>
      (match skipWs rest with
       | ']' :: rest' => some (Json.arr [], rest')
       | _ =>
         (parseElems fuel rest).map (fun p => (Json.arr p.1, p.2)))
    | '{' :: rest =>
      (match skipWs rest with
       | '}' :: rest' => some (Json.obj [], rest')
       | _ =>
         (parseMembers fuel rest).map (fun p => (Json.obj p.1, p.2)))
    | l' => (parseNumber l').map (fun p => (Json.num p.1, p.2))

/-- Parse a nonempty comma-separated list of array elements plus the
closing bracket. -/
def parseElems : Nat → List Char → Option (List Json × List Char)
  | 0, _ => none
  | fuel + 1, l =>
    match parseVal fuel l with
    | none => none
    | some (v, rest) =>
      match skipWs rest with
      | ',' :: rest' =>
        (parseElems fuel rest').map (fun p => (v :: p.1, p.2))
      | ']' :: rest' => some ([v], rest')
      | _ => none

/-- Parse a nonempty comma-separated list of object members plus the
closing brace. -/
def parseMembers : Nat → List Char → Option (List (String × Json) × List Char)
  | 0, _ => none
  | fuel + 1, l =>
    match skipWs l with
    | '"' :: rest =>
      match parseStringBody rest with
      | none => none
      | some (key, rest1) =>
        match skipWs rest1 with
        | ':' :: rest2 =>
          match parseVal fuel rest2 with
          | none => none
          | some (v, rest3) =>
            match skipWs rest3 with
            | ',' :: rest4 =>
              (parseMembers fuel rest4).map
                (fun p => ((key.asString, v) :: p.1, p.2))
            | '}' :: rest4 => some ([(key.asString, v)], rest4)
            | _ => none
        | _ => none
    | _ => none

end

end JsonParse

/-- Model of JS `JSON.parse` as used by `extractToolUses`: parse the whole
string as one JSON value (trailing whitespace allowed, nothing else);
`none` models the thrown `SyntaxError`. -/
def jsonParse (s : String) : Option Json :=
  match JsonParse.parseVal (s.length + 1) s.toList with
  | none => none
  | some (v, rest) =>
    if JsonParse.skipWs rest = [] then some v else none

/-!
Model of the three regular expressions of `extractToolUses`
(`src/unnamed/part_000`, lines 491-506): a pattern is a sequence of
items, matched with JS semantics — literals, greedy `\s*` (always followed
by a literal beginning with a non-space character here, so greediness
without backtracking is exact), and non-greedy capturing `(.*?)` with the
`s` flag (dot matches newlines), which on failure of the remainder extends
the capture one character at a time (backtracking).
-/

inductive PatItem where
  | lit (cs : List Char)
  | wsStar
  | lazyCapture
deriving DecidableEq, Repr

/-- Consume an exact literal from the front of the input. -/
def dropLit : List Char → List Char → Option (List Char)
  | [], s => some s
  | _ :: _, [] => none
  | c :: cs, d :: s => if c = d then dropLit cs s else none

mutual

/-- Match a pattern against a prefix of `s`, returning the captures and the
remaining input. Fuel-bounded; fuel `2 * (items.length + 1) * (s.length + 1)`
always suffices since each call strictly decreases the lexicographic
measure (remaining items, remaining input, phase). -/
def matchSeqF : Nat → List PatItem → List Char → Option (List (List Char) × List Char)
  | 0, _, _ => none
  | _ + 1, [], s => some ([], s)
  | fuel + 1, PatItem.lit l :: ps, s =>
    match dropLit l s with
    | some s' => matchSeqF fuel ps s'
    | none => none
  | fuel + 1, PatItem.wsStar :: ps, s => matchSeqF fuel ps (s.dropWhile isJsSpace)
  | fuel + 1, PatItem.lazyCapture :: ps, s => lazyF fuel ps s []

/-- The non-greedy `(.*?)`: try the shortest capture first; on failure of the
rest of the pattern, extend the capture by one character. -/
def lazyF : Nat → List PatItem → List Char → List Char → Option (List (List Char) × List Char)
  | 0, _, _, _ => none
  | fuel + 1, ps, s, acc =>
    match matchSeqF fuel ps s with
    | some (caps, rest) => some (acc.reverse :: caps, rest)
    | none =>
      match s with
      | [] => none
      | c :: s' => lazyF fuel ps s' (c :: acc)

end

def matchFuel (pat : List PatItem) (s : List Char) : Nat :=
  2 * (pat.length + 1) * (s.length + 1)

/-- Global scan (the `g` flag as used by `matchAll`): find successive
non-overlapping matches left to right, resuming after each match's end.
Fuel `s.length + 1` suffices because every pattern used starts with a
nonempty literal, so a match consumes at least one character. -/
def scanF : Nat → List PatItem → List Char → List (List (List Char))
  | 0, _, _ => []
  | fuel + 1, pat, s =>
    match matchSeqF (matchFuel pat s) pat s with
    | some (caps, rest) => caps :: scanF fuel pat rest
    | none =>
      match s with
      | [] => []
      | _ :: s' => scanF fuel pat s'

/-- All matches of a pattern in a text, as lists of capture strings
(JS `text.matchAll(re)` restricted to the capture groups). -/
def matchAll (pat : List PatItem) (text : String) : List (List String) :=
  (scanF (text.toList.length + 1) pat text.toList).map (fun caps => caps.map List.asString)

def litP (s : String) : PatItem := PatItem.lit s.toList

/-- Format 1 of `extractToolUses`:
the regex `<tool_use>\s*<name>(.*?)<\/name>\s*<arguments>(.*?)<\/arguments>\s*<\/tool_use>`
with flags `gs`. -/
def pattern1 : List PatItem :=
  [litP "<tool_use>", PatItem.wsStar, litP "<name>", PatItem.lazyCapture, litP "</name>",
   PatItem.wsStar, litP "<arguments>", PatItem.lazyCapture, litP "</arguments>",
   PatItem.wsStar, litP "</tool_use>"]

/-- Format 2: the same with `[\s\n]*` in place of `\s*`; since `\n` is in
`\s`, the character class `[\s\n]` is the class of `\s` and the pattern
denotes the same matcher. -/
def pattern2 : List PatItem :=
  [litP "<tool_use>", PatItem.wsStar, litP "<name>", PatItem.lazyCapture, litP "</name>",
   PatItem.wsStar, litP "<arguments>", PatItem.lazyCapture, litP "</arguments>",
   PatItem.wsStar, litP "</tool_use>"]

/-- The lenient strategy's name pattern `<name>(.*?)<\/name>` (flags `gs`). -/
def namePattern : List PatItem := [litP "<name>", PatItem.lazyCapture, litP "</name>"]

/-- The lenient strategy's arguments pattern `<arguments>(.*?)<\/arguments>`. -/
def argsPattern : List PatItem := [litP "<arguments>", PatItem.lazyCapture, litP "</arguments>"]

/-- Arguments of a tool invocation request: the JSON value when `argsStr`
parses, else the raw string (the `catch` fallback of the source). -/
inductive ToolArgs where
  | json (j : Json)
  | raw (s : String)

/-- A parsed tool invocation request (`{ name, arguments }`). -/
structure ToolUse where
  name : String
  arguments : ToolArgs

/-- Build one request from a (name, argsText) pair:
`try { JSON.parse } catch { raw string }`. -/
def mkUse (name argsStr : String) : ToolUse :=
  match jsonParse argsStr with
  | some j => ⟨name, ToolArgs.json j⟩
  | none => ⟨name, ToolArgs.raw argsStr⟩

/-- The strict-match processing loop of `extractToolUses`:
`name = m[1].trim(); argsStr = m[2].trim()`, then `mkUse`. -/
def processMatches (ms : List (List String)) : List ToolUse :=
  ms.map (fun caps => mkUse (jsTrim (caps.headD "")) (jsTrim ((caps.drop 1).headD "")))

/-- `MCPClient.extractToolUses` (`src/unnamed/part_000`, lines 485-541):
try the strict pattern, then its whitespace variant, then the lenient
positional pairing of `<name>`/`<arguments>` spans; parse each arguments
text as JSON with raw-string fallback. -/
def extractToolUses (text : String) : List ToolUse :=
  let matches1 := matchAll pattern1 text
  let matches2 := if matches1 = [] then matchAll pattern2 text else matches1
  if matches2 = [] then
    let nameMatches := (matchAll namePattern text).map (fun caps => jsTrim (caps.headD ""))
    let argsMatches := (matchAll argsPattern text).map (fun caps => jsTrim (caps.headD ""))
    if nameMatches.length > 0 ∧ nameMatches.length = argsMatches.length then
      (nameMatches.zip argsMatches).map (fun p => mkUse p.1 p.2)
    else
      processMatches matches2
  else
    processMatches matches2

/-- The pair-collection stage of `extractToolUses`: the trimmed
(name, argsText) pairs in extraction order, before the per-pair
JSON-parse/raw-fallback step. `extractToolUses` is proved to be exactly
the `mkUse` map over this list (`extractToolUses_eq_map_pairs`). -/
def extractedPairs (text : String) : List (String × String) :=
  let matches1 := matchAll pattern1 text
  let matches2 := if matches1 = [] then matchAll pattern2 text else matches1
  if matches2 = [] then
    let nameMatches := (matchAll namePattern text).map (fun caps => jsTrim (caps.headD ""))
    let argsMatches := (matchAll argsPattern text).map (fun caps => jsTrim (caps.headD ""))
    if nameMatches.length > 0 ∧ nameMatches.length = argsMatches.length then
      nameMatches.zip argsMatches
    else []
  else
    matches2.map (fun caps => (jsTrim (caps.headD ""), jsTrim ((caps.drop 1).headD "")))

/-!
Model of `JSON.stringify` restricted to the message objects serialized by
`processQueryStream` for its callback notifications.
-/

def hexDigitChar (n : Nat) : Char :=
  if n < 10 then Char.ofNat ('0'.toNat + n) else Char.ofNat ('a'.toNat + n - 10)

def jsonEscapeChar (c : Char) : String :=
  if c = '"' then "\\\""
  else if c = '\\' then "\\\\"
  else if c = '\n' then "\\n"
  else if c = '\r' then "\\r"
  else if c = '\t' then "\\t"
  else if c = Char.ofNat 8 then "\\b"
  else if c = Char.ofNat 12 then "\\f"
  else if c.toNat < 0x20 then
    "\\u00" ++ String.singleton (hexDigitChar (c.toNat / 16)) ++
      String.singleton (hexDigitChar (c.toNat % 16))
  else String.singleton c

def jsonQuote (s : String) : String :=
  "\"" ++ String.join (s.toList.map jsonEscapeChar) ++ "\""

def roleString : Role → String
  | Role.system => "system"
  | Role.user => "user"
  | Role.assistant => "assistant"

def stringifyBlock (b : TextBlock) : String :=
  "\x7b\"type\":" ++ jsonQuote b.type ++ ",\"text\":" ++ jsonQuote b.text ++ "\x7d"

def stringifyContent : MsgContent → String
  | MsgContent.str s => jsonQuote s
  | MsgContent.blocks bs => "[" ++ String.intercalate "," (bs.map stringifyBlock) ++ "]"

/-- `JSON.stringify` of a message object as built by the source (field
insertion order `role`, `content`). -/
def stringifyMessage (m : MessageContent) : String :=
  "\x7b\"role\":" ++ jsonQuote (roleString m.role) ++ ",\"content\":" ++
    stringifyContent m.content ++ "\x7d"

/-!
Decidable equality for `Json` (needed so concrete runs of the extractor can
be settled by `decide`): a structurally recursive boolean comparison and
its soundness.
-/

mutual

def Json.beq : Json → Json → Bool
  | Json.null, Json.null => true
  | Json.bool a, Json.bool b => a = b
  | Json.num a, Json.num b => a = b
  | Json.str a, Json.str b => a = b
  | Json.arr xs, Json.arr ys => Json.beqList xs ys
  | Json.obj xs, Json.obj ys => Json.beqObj xs ys
  | _, _ => false

def Json.beqList : List Json → List Json → Bool
  | [], [] => true
  | x :: xs, y :: ys => Json.beq x y && Json.beqList xs ys
  | _, _ => false

def Json.beqObj : List (String × Json) → List (String × Json) → Bool
  | [], [] => true
  | (k, v) :: xs, (l, w) :: ys => (k = l : Bool) && Json.beq v w && Json.beqObj xs ys
  | _, _ => false

end

theorem Json.beqList_sound : ∀ (xs ys : List Json),
    (∀ x ∈ xs, ∀ b, Json.beq x b = true ↔ x = b) →
    (Json.beqList xs ys = true ↔ xs = ys) := by
  intro xs
  induction xs with
  | nil => intro ys _; cases ys <;> simp [Json.beqList]
  | cons x xs ihl =>
    intro ys ih
    cases ys with
    | nil => simp [Json.beqList]
    | cons y ys =>
      simp only [Json.beqList, Bool.and_eq_true, List.cons.injEq]
      rw [ih x (List.mem_cons_self x xs) y,
        ihl ys (fun a ha b => ih a (List.mem_cons_of_mem x ha) b)]

theorem Json.beqObj_sound : ∀ (xs ys : List (String × Json)),
    (∀ p ∈ xs, ∀ b, Json.beq p.2 b = true ↔ p.2 = b) →
    (Json.beqObj xs ys = true ↔ xs = ys) := by
  intro xs
  induction xs with
  | nil => intro ys _; cases ys <;> simp [Json.beqObj]
  | cons x xs ihl =>
    intro ys ih
    cases ys with
    | nil => simp [Json.beqObj]
    | cons y ys =>
      obtain ⟨k, v⟩ := x
      obtain ⟨l, w⟩ := y
      simp only [Json.beqObj, Bool.and_eq_true, List.cons.injEq, Prod.mk.injEq,
        decide_eq_true_eq]
      rw [ih (k, v) (List.mem_cons_self (k, v) xs) w,
        ihl ys (fun a ha b => ih a (List.mem_cons_of_mem (k, v) ha) b)]

theorem Json.beq_sound_aux :
    ∀ (n : Nat) (a : Json), sizeOf a ≤ n → ∀ b, (Json.beq a b = true ↔ a = b) := by
  intro n
  induction n with
  | zero => intro a h; exact absurd h (by cases a <;> simp)
  | succ n ih =>
    intro a h b
    cases a with
    | null => cases b <;> simp [Json.beq]
    | bool x => cases b <;> simp [Json.beq]
    | num x => cases b <;> simp [Json.beq]
    | str x => cases b <;> simp [Json.beq]
    | arr xs =>
      cases b <;> simp only [Json.beq, Bool.false_eq_true, false_iff] <;>
        try exact fun hne => Json.noConfusion hne
      case arr ys =>
        rw [Json.beqList_sound xs ys (fun x hx b' => by
          apply ih
          have h1 := List.sizeOf_lt_of_mem hx
          have h2 : sizeOf (Json.arr xs) = 1 + sizeOf xs := by simp
          omega)]
        simp
    | obj xs =>
      cases b <;> simp only [Json.beq, Bool.false_eq_true, false_iff] <;>
        try exact fun hne => Json.noConfusion hne
      case obj ys =>
        rw [Json.beqObj_sound xs ys (fun p hp b' => by
          apply ih
          have h1 := List.sizeOf_lt_of_mem hp
          have h2 : sizeOf (Json.obj xs) = 1 + sizeOf xs := by simp
          have h3 : sizeOf p.2 < sizeOf p := by
            obtain ⟨k, v⟩ := p; simp
          omega)]
        simp

theorem Json.beq_sound (a b : Json) : Json.beq a b = true ↔ a = b :=
  Json.beq_sound_aux (sizeOf a) a (Nat.le_refl _) b

instance : DecidableEq Json := fun a b => decidable_of_iff _ (Json.beq_sound a b)

deriving instance DecidableEq for Except

deriving instance DecidableEq for ToolArgs

deriving instance DecidableEq for ToolUse

/-!
Connections and the tool-registry aggregation (`MCPClient.listTools`,
`src/unnamed/part_000` lines 100-123). The per-connection `listTools`
primitive of the SDK client is external; it is abstracted as an oracle
`q : Conn → Except Unit (List MCPToolR)` (`Except.error` models the
rejected promise caught by the source's try/catch).
-/

/-- A configured connection as stored in `this.mcpConnections`: the
`client` handle is external, so only the observable fields remain.
`name = ""` models a falsy name (JS `conn.name || conn.url.toString()`). -/
structure Conn where
  name : String
  urlStr : String
deriving DecidableEq, Repr

/-- A tool as returned by one connection's tool-listing primitive. The
input schema is irrelevant to every claim and is kept as an opaque string
payload. -/
structure MCPToolR where
  name : String
  description : String
  inputSchema : String
deriving DecidableEq, Repr

/-- A tool after aggregation, carrying its `serviceSource` tag. -/
structure TaggedTool where
  name : String
  description : String
  inputSchema : String
  serviceSource : String
deriving DecidableEq, Repr

/-- `{ ...tool, serviceSource: conn.name || conn.url.toString() }`. -/
def tagTool (c : Conn) (t : MCPToolR) : TaggedTool :=
  ⟨t.name, t.description, t.inputSchema, if c.name = "" then c.urlStr else c.name⟩

/-- `MCPClient.listTools`: query every connection, substitute `[]` for a
failed connection (the catch branch), tag each tool, flatten in
configuration order. -/
def listTools (conns : List Conn) (q : Conn → Except Unit (List MCPToolR)) :
    List TaggedTool :=
  (conns.map (fun c =>
    match q c with
    | Except.ok ts => ts.map (tagTool c)
    | Except.error _ => [])).flatten

/-!
The orchestration loop. External effects are a fixed environment:
* `completion i` — the text of the `i`-th buffered completion call
  (`Except.error` models the rejected `create` promise, which the source
  does not catch);
* `stream i` — the fragment sequence of the `i`-th streaming completion
  call;
* `tool t` — the outcome of the `t`-th dispatched (nonempty-name) tool
  call of the round sequence; `ok s` carries the common serialized result
  string `JSON.stringify(result.content && Array.isArray(result.content) ?
  result.content[0]?.text : result)`, `noClient` models
  `findClientForTool` returning null, and `errE r` carries the rendered
  text of a thrown `callTool` error.
The sampling parameters (`max_tokens`, `top_p`, `temperature`) are passed
through verbatim to the external primitive and are absorbed into the
oracle. The system prompt composed by the external `BuildSystemPrompt`
collaborator enters as the `systemPrompt` argument.
-/

inductive ToolOutcome where
  | ok (serialized : String)
  | noClient
  | errE (rendered : String)
deriving DecidableEq, Repr

structure Env where
  completion : Nat → Except Unit String
  stream : Nat → Except Unit (List String)
  tool : Nat → ToolOutcome

inductive RunErr where
  | noOpenAI
  | completionFailed
  | outOfFuel
deriving DecidableEq, Repr

/-- The orchestrator's own mutable fields. -/
structure ClientState where
  mcpConnections : List Conn
  hasOpenAI : Bool
  chatHistory : List MessageContent
deriving DecidableEq, Repr

/-- Template rendering `${error}` of the Error thrown for an unresolved
tool (`No service provides tool: ...`). -/
def noClientRendered (toolName : String) : String :=
  "Error: No service provides tool: " ++ toolName

/-- The failure message text pushed by both variants'
`catch` branches. -/
def toolFailText (toolName rendered : String) : String :=
  "The tool call to " ++ toolName ++ " failed with error: " ++ rendered

def toolFailMsg (toolName rendered : String) : MessageContent :=
  userMsg (toolFailText toolName rendered)

/-- The tool-result message of the buffered variant (line 257-270):
the serialized result gets a trailing `"\n\n"`. -/
def toolResultMsgB (toolName serialized : String) : MessageContent :=
  ⟨Role.user, MsgContent.blocks
    [⟨"text", "Here is the result of tool call: " ++ toolName⟩,
     ⟨"text", serialized ++ "\n\n"⟩]⟩

/-- The tool-result message of the streaming variant (line 420-433):
no trailing `"\n\n"`. -/
def toolResultMsgS (toolName serialized : String) : MessageContent :=
  ⟨Role.user, MsgContent.blocks
    [⟨"text", "Here is the result of tool call: " ++ toolName⟩,
     ⟨"text", serialized⟩]⟩

/-- The message appended for one dispatched tool call, buffered variant. -/
def outcomeMsgB (toolName : String) : ToolOutcome → MessageContent
  | ToolOutcome.ok s => toolResultMsgB toolName s
  | ToolOutcome.noClient => toolFailMsg toolName (noClientRendered toolName)
  | ToolOutcome.errE r => toolFailMsg toolName r

/-- The message appended for one dispatched tool call, streaming variant. -/
def outcomeMsgS (toolName : String) : ToolOutcome → MessageContent
  | ToolOutcome.ok s => toolResultMsgS toolName s
  | ToolOutcome.noClient => toolFailMsg toolName (noClientRendered toolName)
  | ToolOutcome.errE r => toolFailMsg toolName r

/-- The formatted callback notification of the streaming variant:
three-backtick json fence around `JSON.stringify` of the message. -/
def notifText (m : MessageContent) : String :=
  "\n\n```json\n" ++ stringifyMessage m ++ "\n```\n\n"

/-- The `for (const toolUse of toolUseList)` dispatch loop of
`processQuery` (lines 232-280): skip a falsy (empty) name, otherwise
append the outcome message and advance the dispatch counter. -/
def dispatchB (env : Env) : List ToolUse → List MessageContent → Nat →
    List MessageContent × Nat
  | [], messages, ti => (messages, ti)
  | tu :: rest, messages, ti =>
    if tu.name = "" then dispatchB env rest messages ti
    else dispatchB env rest (messages ++ [outcomeMsgB tu.name (env.tool ti)]) (ti + 1)

/-- The dispatch loop of `processQueryStream` (lines 395-458): as the
buffered one, but also emits a formatted notification through `onChunk`
for every outcome, and appends the notification to `fullResponse` in the
two failure branches only. -/
def dispatchS (env : Env) : List ToolUse → List MessageContent → Nat → String →
    List String → List MessageContent × Nat × String × List String
  | [], messages, ti, fullResponse, chunks => (messages, ti, fullResponse, chunks)
  | tu :: rest, messages, ti, fullResponse, chunks =>
    if tu.name = "" then dispatchS env rest messages ti fullResponse chunks
    else
      match env.tool ti with
      | ToolOutcome.ok s =>
        let m := toolResultMsgS tu.name s
        dispatchS env rest (messages ++ [m]) (ti + 1) fullResponse
          (chunks ++ [notifText m])
      | ToolOutcome.noClient =>
        let m := toolFailMsg tu.name (noClientRendered tu.name)
        dispatchS env rest (messages ++ [m]) (ti + 1) (fullResponse ++ notifText m)
          (chunks ++ [notifText m])
      | ToolOutcome.errE r =>
        let m := toolFailMsg tu.name r
        dispatchS env rest (messages ++ [m]) (ti + 1) (fullResponse ++ notifText m)
          (chunks ++ [notifText m])

/-- The working-list construction shared verbatim by both variants
(lines 169-191 and 318-340). Returns the working message list AND the
observable persisted history during the round: `messages =
[...this.chatHistory]` copies the message references, so the subsequent
`messages[0].content = systemPrompt` mutates the message object that
`this.chatHistory[0]` still references — the persisted history's leading
system message content changes in place. The `unshift`/`push` calls
mutate only the copied array and leave the persisted one untouched. -/
def buildMessages (chatHistory : List MessageContent) (systemPrompt query : String)
    (useHistory : Bool) : List MessageContent × List MessageContent :=
  if useHistory = false ∨ chatHistory = [] then
    ([sysMsg systemPrompt, userMsg query], chatHistory)
  else
    match chatHistory with
    | [] => ([sysMsg systemPrompt, userMsg query], chatHistory)
    | m :: rest =>
      if m.role = Role.system then
        (sysMsg systemPrompt :: rest ++ [userMsg query], sysMsg systemPrompt :: rest)
      else
        (sysMsg systemPrompt :: (m :: rest) ++ [userMsg query], m :: rest)

/-- The `while (true)` loop of `processQuery` (lines 193-281), fuel-bounded
(the source loop is unbounded; `outOfFuel` marks a run still in flight).
Returns the persisted history at exit and the result.  On a completion
failure the function rejects with the history left at its observable
mid-round value `midHist`. -/
def loopB (env : Env) (useHistory : Bool) (midHist : List MessageContent) :
    Nat → Nat → Nat → List MessageContent → List MessageContent × Except RunErr String
  | 0, _, _, _ => (midHist, Except.error RunErr.outOfFuel)
  | fuel + 1, ci, ti, messages =>
    match env.completion ci with
    | Except.error _ => (midHist, Except.error RunErr.completionFailed)
    | Except.ok assistantMessage =>
      let toolUseList := extractToolUses assistantMessage
      let messages1 := messages ++ [assistantMsg assistantMessage]
      if toolUseList.length = 0 then
        ((if useHistory then messages1 else midHist), Except.ok assistantMessage)
      else
        let d := dispatchB env toolUseList messages1 ti
        loopB env useHistory midHist fuel (ci + 1) d.2 d.1

/-- `MCPClient.processQuery` (lines 148-282). -/
def processQuery (env : Env) (fuel : Nat) (st : ClientState)
    (systemPrompt query : String) (useHistory : Bool) :
    ClientState × Except RunErr String :=
  if st.hasOpenAI = false then (st, Except.error RunErr.noOpenAI)
  else
    let bm := buildMessages st.chatHistory systemPrompt query useHistory
    let r := loopB env useHistory bm.2 fuel 0 0 bm.1
    ({ st with chatHistory := r.1 }, r.2)

/-- The `while (true)` loop of `processQueryStream` (lines 345-459).
Also accumulates the `onChunk` emission trace. The terminal branch models
`fullResponse = currentAssistantMessage; return fullResponse;`
(lines 388-389): the assignment overwrites whatever error-trail
`fullResponse` had accumulated, so the returned text is exactly the final
assistant message. -/
def loopS (env : Env) (useHistory : Bool) (midHist : List MessageContent) :
    Nat → Nat → Nat → List MessageContent → String → List String →
    List MessageContent × List String × Except RunErr String
  | 0, _, _, _, _, chunks => (midHist, chunks, Except.error RunErr.outOfFuel)
  | fuel + 1, ci, ti, messages, fullResponse, chunks =>
    match env.stream ci with
    | Except.error _ => (midHist, chunks, Except.error RunErr.completionFailed)
    | Except.ok frags =>
      let current := String.join frags
      let chunks1 := chunks ++ frags.filter (fun c => c ≠ "")
      let messages1 := messages ++ [assistantMsg current]
      let toolUseList := extractToolUses current
      if toolUseList.length = 0 then
        ((if useHistory then messages1 else midHist), chunks1, Except.ok current)
      else
        let d := dispatchS env toolUseList messages1 ti fullResponse chunks1
        loopS env useHistory midHist fuel (ci + 1) d.2.1 d.1 d.2.2.1 d.2.2.2

/-- `MCPClient.processQueryStream` (lines 294-460); the middle component
is the ordered trace of `onChunk` invocations. -/
def processQueryStream (env : Env) (fuel : Nat) (st : ClientState)
    (systemPrompt query : String) (useHistory : Bool) :
    ClientState × List String × Except RunErr String :=
  if st.hasOpenAI = false then (st, [], Except.error RunErr.noOpenAI)
  else
    let bm := buildMessages st.chatHistory systemPrompt query useHistory
    let r := loopS env useHistory bm.2 fuel 0 0 bm.1 "" []
    ({ st with chatHistory := r.1 }, r.2.1, r.2.2)

/-- `MCPClient.clearChatHistory` (lines 128-130). -/
def clearChatHistory (st : ClientState) : ClientState :=
  { st with chatHistory := [] }

/-- `MCPClient.cleanup` (lines 546-566): attempt to close every
connection independently (`closeOutcome c` is the try/catch verdict for
connection `c`), then reset the history and discard the completion
client. -/
def cleanup (closeOutcome : Conn → Bool) (st : ClientState) :
    ClientState × List Bool :=
  ({ st with chatHistory := [], hasOpenAI := false },
   st.mcpConnections.map closeOutcome)

/-!
Array-level heap model for `getChatHistory` (lines 135-137): JS arrays are
mutable heap objects, so `return [...this.chatHistory]` is an allocation.
`arrays` is the heap of live array objects indexed by reference;
`historyRef` is the reference held in `this.chatHistory`. A caller
"mutating the returned sequence" is a `writeArray` at the returned
reference. (Message objects themselves are modelled as values here;
the one message-object mutation of the source is captured in
`buildMessages`.)
-/

structure ArraysState where
  arrays : List (List MessageContent)
  historyRef : Nat
deriving Repr

/-- `getChatHistory(): return [...this.chatHistory]` — allocate a fresh
array with the same contents and return its reference. -/
def getChatHistory (s : ArraysState) : ArraysState × Nat :=
  ({ s with arrays := s.arrays ++ [s.arrays.getD s.historyRef []] }, s.arrays.length)

def readArray (s : ArraysState) (r : Nat) : List MessageContent :=
  s.arrays.getD r []

/-- An arbitrary caller-side mutation of the array object `r`
(any sequence of push/pop/splice/index assignments has this net effect). -/
def writeArray (s : ArraysState) (r : Nat) (l : List MessageContent) : ArraysState :=
  { s with arrays := s.arrays.set r l }

/-- The result skeleton of the buffered loop: the returned value (and the
thrown error) as a function of the completion sequence alone. -/
def spinB (env : Env) : Nat → Nat → Except RunErr String
  | 0, _ => Except.error RunErr.outOfFuel
  | fuel + 1, ci =>
    match env.completion ci with
    | Except.error _ => Except.error RunErr.completionFailed
    | Except.ok t =>
      if (extractToolUses t).length = 0 then Except.ok t
      else spinB env fuel (ci + 1)

/-- The result skeleton of the streaming loop. -/
def spinS (env : Env) : Nat → Nat → Except RunErr String
  | 0, _ => Except.error RunErr.outOfFuel
  | fuel + 1, ci =>
    match env.stream ci with
    | Except.error _ => Except.error RunErr.completionFailed
    | Except.ok frags =>
      if (extractToolUses (String.join frags)).length = 0 then
        Except.ok (String.join frags)
      else spinS env fuel (ci + 1)

/-- The rendered error text of a failing tool outcome
(`none` for a successful call). -/
def failureRendered (toolName : String) : ToolOutcome → Option String
  | ToolOutcome.ok _ => none
  | ToolOutcome.noClient => some (noClientRendered toolName)
  | ToolOutcome.errE r => some r

/-!
Theorems settling the claims.
-/

/-- Every request produced by the extractor comes from `mkUse` applied to
some (name, argsText) pair. -/
theorem extract_mem_mkUse (t : String) (tu : ToolUse) (h : tu ∈ extractToolUses t) :
    ∃ nm ar, tu = mkUse nm ar := by
  simp only [extractToolUses, processMatches] at h
  repeat' split at h
  all_goals obtain ⟨x, -, hp⟩ := List.mem_map.mp h
  all_goals exact ⟨_, _, hp.symm⟩

/-- A request carrying a raw string is exactly one whose arguments text
failed to parse as JSON. -/
theorem mkUse_raw_of_parse_failure (nm ar s : String)
    (h : (mkUse nm ar).arguments = ToolArgs.raw s) : jsonParse s = none := by
  unfold mkUse at h
  cases hp : jsonParse ar with
  | none => rw [hp] at h; cases h; exact hp
  | some j => rw [hp] at h; cases h

/-- C4: when neither strict pattern matches, the lenient strategy pairs the
`<name>`-spans with the `<arguments>`-spans positionally exactly when their
counts are equal and nonzero, and otherwise the extraction returns zero
requests. -/
theorem C4_lenient_pairing (text : String)
    (h1 : matchAll pattern1 text = []) (h2 : matchAll pattern2 text = []) :
    extractToolUses text =
      (if ((matchAll namePattern text).map (fun caps => jsTrim (caps.headD ""))).length > 0 ∧
          ((matchAll namePattern text).map (fun caps => jsTrim (caps.headD ""))).length =
            ((matchAll argsPattern text).map (fun caps => jsTrim (caps.headD ""))).length
       then (((matchAll namePattern text).map (fun caps => jsTrim (caps.headD ""))).zip
               ((matchAll argsPattern text).map (fun caps => jsTrim (caps.headD "")))).map
              (fun p => mkUse p.1 p.2)
       else []) := by
  simp only [extractToolUses, h1, h2, if_true, processMatches, List.map_nil]

/-- Witness for C4: two name tags and one arguments tag with no strict
match yield zero requests; two name tags and two arguments tags pair up
positionally. -/
theorem C4_lenient_pairing_witness :
    extractToolUses "<name>a</name><name>b</name><arguments>\x7b\x7d</arguments>" = [] ∧
    extractToolUses "<name>a</name>x<arguments>1</arguments>y<name>b</name>z<arguments>oops</arguments>" =
      [mkUse "a" "1", mkUse "b" "oops"] := by
  constructor
  · rw [C4_lenient_pairing _ (by decide) (by decide)]
    decide
  · rw [C4_lenient_pairing _ (by decide) (by decide)]
    decide

/-- `extractToolUses` maps `mkUse` over the extracted (name, argsText)
pairs positionally: no pair is dropped, reordered or substituted. -/
theorem extractToolUses_eq_map_pairs (text : String) :
    extractToolUses text = (extractedPairs text).map (fun p => mkUse p.1 p.2) := by
  simp only [extractToolUses, extractedPairs, processMatches]
  repeat' split
  all_goals simp_all [List.map_map]

/-- C5: a single well-formed strict match whose trimmed arguments text is
the JSON text of an object with one key "a" and value 1 yields exactly one
request with the trimmed name and the parsed structured value; every
extracted (name, argsText) pair whose arguments text does not parse as
JSON yields, at its position, the request carrying the name and the raw
arguments string; and conversely a raw-carrying request only arises from
a parse failure. -/
theorem C5_roundtrip_and_raw_fallback (text n a : String)
    (hm : matchAll pattern1 text = [[n, a]])
    (ha : jsTrim a = "\x7b\"a\":1\x7d") :
    extractToolUses text =
      [⟨jsTrim n, ToolArgs.json (Json.obj [("a", Json.num 1)])⟩] ∧
    (∀ (t : String) (i : Nat) (nm ar : String),
      (extractedPairs t)[i]? = some (nm, ar) → jsonParse ar = none →
      (extractToolUses t)[i]? = some (⟨nm, ToolArgs.raw ar⟩ : ToolUse)) ∧
    (∀ t tu, tu ∈ extractToolUses t → ∀ s, tu.arguments = ToolArgs.raw s →
      jsonParse s = none) := by
  refine ⟨?_, ?_, ?_⟩
  · have hparse : jsonParse "\x7b\"a\":1\x7d" = some (Json.obj [("a", Json.num 1)]) := by
      decide
    simp [extractToolUses, hm, processMatches, mkUse, ha, hparse]
  · intro t i nm ar hp hfail
    rw [extractToolUses_eq_map_pairs, List.getElem?_map, hp]
    simp [mkUse, hfail]
  · intro t tu hmem s hraw
    obtain ⟨nm, ar, rfl⟩ := extract_mem_mkUse t tu hmem
    exact mkUse_raw_of_parse_failure nm ar s hraw

/-- Witness for C5 at a concrete assistant text. -/
theorem C5_roundtrip_witness :
    extractToolUses
        "reply <tool_use><name>get</name><arguments>\x7b\"a\":1\x7d</arguments></tool_use> done" =
      [⟨"get", ToolArgs.json (Json.obj [("a", Json.num 1)])⟩] :=
  (C5_roundtrip_and_raw_fallback _ "get" "\x7b\"a\":1\x7d" (by decide) (by decide)).1

/-- `listTools` distributes over connection concatenation: the result is
the per-connection lists in configuration order. -/
theorem listTools_append (l1 l2 : List Conn) (q : Conn → Except Unit (List MCPToolR)) :
    listTools (l1 ++ l2) q = listTools l1 q ++ listTools l2 q := by
  simp [listTools]

/-- `listTools` on one connection. -/
theorem listTools_singleton (c : Conn) (q : Conn → Except Unit (List MCPToolR)) :
    listTools [c] q =
      (match q c with
       | Except.ok ts => ts.map (tagTool c)
       | Except.error _ => []) := by
  simp [listTools]

/-- C6: a failing connection contributes nothing (and removes nothing from
the others); every returned tool is one of a successfully queried
connection's tools tagged with that connection's name or, failing a name,
its address; and the result is the per-connection lists concatenated in
configuration order with within-connection order preserved (so duplicate
tool names survive). -/
theorem C6_aggregation (conns1 conns2 : List Conn) (c : Conn)
    (q : Conn → Except Unit (List MCPToolR)) (hfail : q c = Except.error ()) :
    (listTools (conns1 ++ c :: conns2) q = listTools (conns1 ++ conns2) q) ∧
    (∀ conns t, t ∈ listTools conns q → ∃ c' ∈ conns, ∃ ts rt,
       q c' = Except.ok ts ∧ rt ∈ ts ∧ t = tagTool c' rt ∧
       t.serviceSource = (if c'.name = "" then c'.urlStr else c'.name)) ∧
    (∀ l1 l2, listTools (l1 ++ l2) q = listTools l1 q ++ listTools l2 q) ∧
    (∀ c' ts, q c' = Except.ok ts → listTools [c'] q = ts.map (tagTool c')) := by
  refine ⟨?_, ?_, fun l1 l2 => listTools_append l1 l2 q, ?_⟩
  · rw [listTools_append, listTools_append]
    have : listTools (c :: conns2) q = listTools [c] q ++ listTools conns2 q := by
      simpa using listTools_append [c] conns2 q
    rw [this, listTools_singleton, hfail]
    simp
  · intro conns t ht
    induction conns with
    | nil => simp [listTools] at ht
    | cons c' rest ih =>
      rw [show c' :: rest = [c'] ++ rest from rfl, listTools_append] at ht
      rcases List.mem_append.mp ht with hl | hr
      · rw [listTools_singleton] at hl
        cases hq : q c' with
        | ok ts =>
          rw [hq] at hl
          obtain ⟨rt, hrt, hteq⟩ := List.mem_map.mp hl
          exact ⟨c', List.mem_cons_self c' rest, ts, rt, hq, hrt, hteq.symm,
            by rw [← hteq]; rfl⟩
        | error e => rw [hq] at hl; simp at hl
      · obtain ⟨c'', hc'', rest'⟩ := ih hr
        exact ⟨c'', List.mem_cons_of_mem c' hc'', rest'⟩
  · intro c' ts hq
    rw [listTools_singleton, hq]

/-- Witness for C6: two connections where the middle one fails; the tags
fall back to the address for the unnamed connection and duplicates
survive. -/
theorem C6_aggregation_witness :
    listTools [⟨"alpha", "http://a/"⟩, ⟨"", "http://b/"⟩, ⟨"", "http://c/"⟩]
        (fun c => if c.urlStr = "http://b/" then Except.error ()
                  else Except.ok [⟨"t", "d", "s"⟩]) =
      [⟨"t", "d", "s", "alpha"⟩, ⟨"t", "d", "s", "http://c/"⟩] := by
  have h := (C6_aggregation [⟨"alpha", "http://a/"⟩] [⟨"", "http://c/"⟩]
    ⟨"", "http://b/"⟩
    (fun c => if c.urlStr = "http://b/" then Except.error () else Except.ok [⟨"t", "d", "s"⟩])
    (by simp)).1
  simp only [List.cons_append, List.nil_append] at h
  rw [h]
  decide

/-- C9: `getChatHistory` twice with no intervening operation returns equal
content, and a caller-side mutation of the returned array object leaves
every subsequent `getChatHistory` result unchanged — the returned array is
a fresh allocation, not the internal `this.chatHistory` reference. -/
theorem C9_defensive_copy (s : ArraysState) (hvalid : s.historyRef < s.arrays.length)
    (l : List MessageContent) :
    (readArray (getChatHistory (getChatHistory s).1).1 (getChatHistory (getChatHistory s).1).2
       = readArray (getChatHistory s).1 (getChatHistory s).2) ∧
    (readArray (getChatHistory (writeArray (getChatHistory s).1 (getChatHistory s).2 l)).1
               (getChatHistory (writeArray (getChatHistory s).1 (getChatHistory s).2 l)).2
       = readArray (getChatHistory s).1 (getChatHistory s).2) := by
  obtain ⟨A, h⟩ := s
  simp only [getChatHistory, writeArray, readArray] at *
  have hset : (A ++ [A.getD h []]).set A.length l = A ++ [l] := by
    rw [List.set_append_right _ _ (Nat.le_refl _)]
    simp
  have hread : ∀ (B : List (List MessageContent)) (x : List MessageContent),
      (B ++ [x]).getD B.length [] = x := by
    intro B x
    rw [List.getD_append_right _ _ _ _ (Nat.le_refl _)]
    simp
  have hkeep : ∀ (B : List (List MessageContent)) (x : List MessageContent),
      h < B.length → (B ++ [x]).getD h [] = B.getD h [] := by
    intro B x hB
    rw [List.getD_append _ _ _ _ hB]
  constructor
  · rw [hread, hread, hkeep _ _ hvalid]
  · rw [hset, hread, hread, hkeep _ _ hvalid]

/-- Witness for C9 at a concrete heap. -/
theorem C9_defensive_copy_witness :
    (readArray (getChatHistory (getChatHistory ⟨[[userMsg "m"]], 0⟩).1).1
       (getChatHistory (getChatHistory ⟨[[userMsg "m"]], 0⟩).1).2
       = readArray (getChatHistory ⟨[[userMsg "m"]], 0⟩).1
           (getChatHistory ⟨[[userMsg "m"]], 0⟩).2) ∧
    (readArray (getChatHistory (writeArray (getChatHistory ⟨[[userMsg "m"]], 0⟩).1
           (getChatHistory ⟨[[userMsg "m"]], 0⟩).2 [])).1
       (getChatHistory (writeArray (getChatHistory ⟨[[userMsg "m"]], 0⟩).1
           (getChatHistory ⟨[[userMsg "m"]], 0⟩).2 [])).2
       = readArray (getChatHistory ⟨[[userMsg "m"]], 0⟩).1
           (getChatHistory ⟨[[userMsg "m"]], 0⟩).2) :=
  C9_defensive_copy ⟨[[userMsg "m"]], 0⟩ (by decide) []

/-- C10: after `cleanup`, the history is empty and the completion client is
discarded, so both query entry points reject with the missing-credentials
error whatever the rest of the state was; every connection's close is
attempted regardless of the other connections' close outcomes, and the
connection list itself survives. -/
theorem C10_cleanup (env : Env) (fuel : Nat) (st : ClientState)
    (closeOutcome : Conn → Bool) (sys q : String) (uh : Bool) :
    ((cleanup closeOutcome st).1.chatHistory = []) ∧
    (processQuery env fuel (cleanup closeOutcome st).1 sys q uh =
      ((cleanup closeOutcome st).1, Except.error RunErr.noOpenAI)) ∧
    (processQueryStream env fuel (cleanup closeOutcome st).1 sys q uh =
      ((cleanup closeOutcome st).1, [], Except.error RunErr.noOpenAI)) ∧
    ((cleanup closeOutcome st).2 = st.mcpConnections.map closeOutcome) ∧
    ((cleanup closeOutcome st).1.mcpConnections = st.mcpConnections) := by
  refine ⟨rfl, ?_, ?_, rfl, rfl⟩
  · simp [cleanup, processQuery]
  · simp [cleanup, processQueryStream]

/-- The buffered loop's outcome is a function of the completion sequence
alone (the message list, the tool counter and the tool outcomes never
influence it). -/
theorem loopB_result_eq_spinB (env : Env) (uh : Bool) (mid : List MessageContent) :
    ∀ fuel ci ti messages,
      (loopB env uh mid fuel ci ti messages).2 = spinB env fuel ci := by
  intro fuel
  induction fuel with
  | zero => intro ci ti messages; rfl
  | succ fuel ih =>
    intro ci ti messages
    simp only [loopB, spinB]
    cases env.completion ci with
    | error e => rfl
    | ok t =>
      by_cases hturn : (extractToolUses t).length = 0
      · simp [hturn]
      · simp [hturn, ih]

/-- The streaming loop's outcome is a function of the fragment sequence
alone; in particular it does not depend on the accumulated
`fullResponse` error-trail. -/
theorem loopS_result_eq_spinS (env : Env) (uh : Bool) (mid : List MessageContent) :
    ∀ fuel ci ti messages fr ch,
      (loopS env uh mid fuel ci ti messages fr ch).2.2 = spinS env fuel ci := by
  intro fuel
  induction fuel with
  | zero => intro ci ti messages fr ch; rfl
  | succ fuel ih =>
    intro ci ti messages fr ch
    simp only [loopS, spinS]
    cases env.stream ci with
    | error e => rfl
    | ok frags =>
      by_cases hturn : (extractToolUses (String.join frags)).length = 0
      · simp [hturn]
      · simp [hturn, ih]

/-- Changing the tool oracle never changes the buffered skeleton. -/
theorem spinB_tool_irrelevant (env : Env) (toolO : Nat → ToolOutcome) :
    ∀ fuel ci, spinB { env with tool := toolO } fuel ci = spinB env fuel ci := by
  intro fuel
  induction fuel with
  | zero => intro ci; rfl
  | succ fuel ih =>
    intro ci
    simp only [spinB]
    cases env.completion ci with
    | error e => rfl
    | ok t =>
      by_cases hturn : (extractToolUses t).length = 0
      · simp [hturn]
      · simp [hturn, ih]

/-- Changing the tool oracle never changes the streaming skeleton. -/
theorem spinS_tool_irrelevant (env : Env) (toolO : Nat → ToolOutcome) :
    ∀ fuel ci, spinS { env with tool := toolO } fuel ci = spinS env fuel ci := by
  intro fuel
  induction fuel with
  | zero => intro ci; rfl
  | succ fuel ih =>
    intro ci
    simp only [spinS]
    cases env.stream ci with
    | error e => rfl
    | ok frags =>
      by_cases hturn : (extractToolUses (String.join frags)).length = 0
      · simp [hturn]
      · simp [hturn, ih]

/-- C7: a dispatched tool call that fails (unresolvable name or a throwing
call) appends the `The tool call to X failed with error: ...` user message
and the dispatch continues with the next extracted call; and the round's
outcome — returned text, thrown error, when the model is called again —
is a function of the completion sequence alone, so no tool failure is
fatal in either variant. -/
theorem C7_tool_failure_recoverable (env : Env) (tu : ToolUse) (rest : List ToolUse)
    (msgs : List MessageContent) (ti : Nat) (fr : String) (ch : List String) (r : String)
    (hname : tu.name ≠ "")
    (hfail : failureRendered tu.name (env.tool ti) = some r) :
    (dispatchB env (tu :: rest) msgs ti =
       dispatchB env rest
         (msgs ++ [userMsg ("The tool call to " ++ tu.name ++ " failed with error: " ++ r)])
         (ti + 1)) ∧
    (dispatchS env (tu :: rest) msgs ti fr ch =
       dispatchS env rest (msgs ++ [toolFailMsg tu.name r]) (ti + 1)
         (fr ++ notifText (toolFailMsg tu.name r))
         (ch ++ [notifText (toolFailMsg tu.name r)])) ∧
    (∀ uh mid fuel ci ti' msgs',
       (loopB env uh mid fuel ci ti' msgs').2 = spinB env fuel ci) ∧
    (∀ uh mid fuel ci ti' msgs' fr' ch',
       (loopS env uh mid fuel ci ti' msgs' fr' ch').2.2 = spinS env fuel ci) ∧
    (∀ toolO fuel ci,
       spinB { env with tool := toolO } fuel ci = spinB env fuel ci ∧
       spinS { env with tool := toolO } fuel ci = spinS env fuel ci) := by
  refine ⟨?_, ?_,
    fun uh mid fuel ci ti' msgs' => loopB_result_eq_spinB env uh mid fuel ci ti' msgs',
    fun uh mid fuel ci ti' msgs' fr' ch' =>
      loopS_result_eq_spinS env uh mid fuel ci ti' msgs' fr' ch',
    fun toolO fuel ci =>
      ⟨spinB_tool_irrelevant env toolO fuel ci, spinS_tool_irrelevant env toolO fuel ci⟩⟩
  · cases ho : env.tool ti with
    | ok s => rw [ho] at hfail; cases hfail
    | noClient =>
      rw [ho] at hfail
      cases hfail
      simp [dispatchB, hname, ho, outcomeMsgB, toolFailMsg, toolFailText]
    | errE e =>
      rw [ho] at hfail
      cases hfail
      simp [dispatchB, hname, ho, outcomeMsgB, toolFailMsg, toolFailText]
  · cases ho : env.tool ti with
    | ok s => rw [ho] at hfail; cases hfail
    | noClient =>
      rw [ho] at hfail
      cases hfail
      simp [dispatchS, hname, ho]
    | errE e =>
      rw [ho] at hfail
      cases hfail
      simp [dispatchS, hname, ho]

/-- Witness for C7: a concrete failing dispatch of each kind. -/
theorem C7_tool_failure_witness :
    (dispatchB ⟨fun _ => Except.ok "", fun _ => Except.ok [], fun _ => ToolOutcome.noClient⟩
        [⟨"t", ToolArgs.raw ""⟩] [] 0 =
      ([userMsg "The tool call to t failed with error: Error: No service provides tool: t"], 1)) ∧
    (dispatchB ⟨fun _ => Except.ok "", fun _ => Except.ok [], fun _ => ToolOutcome.errE "Error: boom"⟩
        [⟨"t", ToolArgs.raw ""⟩] [] 0 =
      ([userMsg "The tool call to t failed with error: Error: boom"], 1)) := by
  constructor
  · rw [(C7_tool_failure_recoverable _ ⟨"t", ToolArgs.raw ""⟩ [] [] 0 "" []
      "Error: No service provides tool: t" (by decide) (by rfl)).1]
    decide
  · rw [(C7_tool_failure_recoverable _ ⟨"t", ToolArgs.raw ""⟩ [] [] 0 "" []
      "Error: boom" (by decide) (by rfl)).1]
    decide

/-- A concrete environment whose every model response is plain text with
no tool-call syntax. -/
def envPlain : Env :=
  ⟨fun _ => Except.ok "hello", fun _ => Except.ok ["hello"], fun _ => ToolOutcome.ok ""⟩

/-- A freshly constructed client with completion credentials and empty
history. -/
def stFresh : ClientState := ⟨[], true, []⟩

/-- Counterexample to C8 as stated: from an empty persisted history (the
state of a fresh client), a no-tool-call response commits a history of
length 3 (system, user, assistant) — an increase of 3, not 2. -/
theorem C8_counterexample :
    (processQuery envPlain 1 stFresh "sys" "q" true).2 = Except.ok "hello" ∧
    stFresh.chatHistory.length = 0 ∧
    (processQuery envPlain 1 stFresh "sys" "q" true).1.chatHistory.length = 3 := by
  decide

/-- C8 amended: a response with no extractable tool calls terminates the
round after the first completion (the result is fixed by completion 0,
whatever fuel remains), returns exactly the raw response text, and, with
history enabled, the committed history length is the prior length plus 2
when the prior history was nonempty with a leading system message, and
plus 3 (system, user, assistant) when the prior history was empty (or
lacked a leading system message, a state unreachable through the public
interface). -/
theorem C8_amended (env : Env) (fuel : Nat) (st : ClientState) (sys q t : String) (uh : Bool)
    (hopen : st.hasOpenAI = true)
    (hc : env.completion 0 = Except.ok t)
    (hz : extractToolUses t = []) :
    (processQuery env (fuel + 1) st sys q uh =
      ({ st with chatHistory :=
          if uh then (buildMessages st.chatHistory sys q uh).1 ++ [assistantMsg t]
          else (buildMessages st.chatHistory sys q uh).2 },
       Except.ok t)) ∧
    (uh = true →
      (processQuery env (fuel + 1) st sys q uh).1.chatHistory.length =
        (if st.chatHistory = [] then 3
         else if (st.chatHistory.headD (userMsg "")).role = Role.system
           then st.chatHistory.length + 2
           else st.chatHistory.length + 3)) := by
  have hrun : processQuery env (fuel + 1) st sys q uh =
      ({ st with chatHistory :=
          if uh then (buildMessages st.chatHistory sys q uh).1 ++ [assistantMsg t]
          else (buildMessages st.chatHistory sys q uh).2 },
       Except.ok t) := by
    simp only [processQuery, hopen, Bool.true_eq_false, if_false, loopB, hc, hz,
      List.length_nil, if_pos rfl]
    cases uh <;> rfl
  refine ⟨hrun, fun huh => ?_⟩
  rw [hrun, huh]
  subst huh
  simp only [if_true]
  cases hh : st.chatHistory with
  | nil =>
    simp [buildMessages, hh]
  | cons m restH =>
    by_cases hsysm : m.role = Role.system
    · simp [buildMessages, hh, hsysm]
    · simp [buildMessages, hh, hsysm]

/-- Witness for C8 at a concrete three-message prior history with a
leading system message: 3 + 2 = 5. -/
theorem C8_amended_witness :
    (processQuery envPlain 1 ⟨[], true, [sysMsg "o", userMsg "m", assistantMsg "x"]⟩
        "sys" "q" true).1.chatHistory.length = 5 := by
  have h := (C8_amended envPlain 0 ⟨[], true, [sysMsg "o", userMsg "m", assistantMsg "x"]⟩
    "sys" "q" "hello" true rfl rfl (by decide)).2 rfl
  exact h.trans (by decide)

/-- The dispatch loop only appends to the working list. -/
theorem dispatchB_hist_mono (env : Env) :
    ∀ (tus : List ToolUse) (msgs : List MessageContent) (ti : Nat),
      ∃ ms, (dispatchB env tus msgs ti).1 = msgs ++ ms := by
  intro tus
  induction tus with
  | nil => intro msgs ti; exact ⟨[], by simp [dispatchB]⟩
  | cons tu rest ih =>
    intro msgs ti
    by_cases hname : tu.name = ""
    · obtain ⟨ms, hms⟩ := ih msgs ti
      exact ⟨ms, by simp [dispatchB, hname, hms]⟩
    · obtain ⟨ms, hms⟩ := ih (msgs ++ [outcomeMsgB tu.name (env.tool ti)]) (ti + 1)
      exact ⟨[outcomeMsgB tu.name (env.tool ti)] ++ ms,
        by simp [dispatchB, hname, hms]⟩

/-- On a run that rejects, the buffered loop leaves the history at the
mid-round value. -/
theorem loopB_hist_error (env : Env) (uh : Bool) (mid : List MessageContent) :
    ∀ fuel ci ti msgs e, (loopB env uh mid fuel ci ti msgs).2 = Except.error e →
      (loopB env uh mid fuel ci ti msgs).1 = mid := by
  intro fuel
  induction fuel with
  | zero => intro ci ti msgs e _; rfl
  | succ fuel ih =>
    intro ci ti msgs e hres
    simp only [loopB] at hres ⊢
    cases hc : env.completion ci with
    | error u => simp [hc]
    | ok t =>
      rw [hc] at hres
      by_cases hturn : (extractToolUses t).length = 0
      · simp only [hturn, if_pos rfl] at hres
        cases hres
      · simp only [hturn, if_neg hturn] at hres ⊢
        exact ih _ _ _ _ hres

/-- With history mode off, the buffered loop never touches the persisted
history. -/
theorem loopB_hist_false (env : Env) (mid : List MessageContent) :
    ∀ fuel ci ti msgs, (loopB env false mid fuel ci ti msgs).1 = mid := by
  intro fuel
  induction fuel with
  | zero => intro ci ti msgs; rfl
  | succ fuel ih =>
    intro ci ti msgs
    simp only [loopB]
    cases env.completion ci with
    | error u => rfl
    | ok t =>
      by_cases hturn : (extractToolUses t).length = 0
      · simp [hturn]
      · simp [hturn, ih]

/-- On a committing run, the final history is the working list: the built
list extended by the round messages, ending with the terminal assistant
message, whose text extracts zero tool calls. -/
theorem loopB_hist_ok (env : Env) (mid : List MessageContent) :
    ∀ fuel ci ti msgs t, (loopB env true mid fuel ci ti msgs).2 = Except.ok t →
      extractToolUses t = [] ∧
      ∃ ms, (loopB env true mid fuel ci ti msgs).1 = msgs ++ ms ++ [assistantMsg t] := by
  intro fuel
  induction fuel with
  | zero => intro ci ti msgs t h; cases h
  | succ fuel ih =>
    intro ci ti msgs t hres
    simp only [loopB] at hres ⊢
    cases hc : env.completion ci with
    | error u => rw [hc] at hres; cases hres
    | ok t' =>
      rw [hc] at hres
      by_cases hturn : (extractToolUses t').length = 0
      · simp only [hturn, if_pos rfl] at hres ⊢
        cases hres
        exact ⟨List.length_eq_zero.mp hturn, ⟨[], by simp⟩⟩
      · simp only [if_neg hturn] at hres ⊢
        obtain ⟨hz, ms, hms⟩ := ih _ _ _ _ hres
        obtain ⟨ms', hms'⟩ := dispatchB_hist_mono env (extractToolUses t')
          (msgs ++ [assistantMsg t']) ti
        refine ⟨hz, [assistantMsg t'] ++ ms' ++ ms, ?_⟩
        rw [hms, hms']
        simp

/-- A value the buffered skeleton returns is always a text with zero
extracted tool calls (the terminal condition). -/
theorem spinB_ok_no_tools (env : Env) :
    ∀ fuel ci t, spinB env fuel ci = Except.ok t → extractToolUses t = [] := by
  intro fuel
  induction fuel with
  | zero => intro ci t h; cases h
  | succ fuel ih =>
    intro ci t h
    simp only [spinB] at h
    cases hc : env.completion ci with
    | error u => rw [hc] at h; cases h
    | ok t' =>
      rw [hc] at h
      by_cases hturn : (extractToolUses t').length = 0
      · simp only [hturn, if_pos rfl] at h
        cases h
        exact List.length_eq_zero.mp hturn
      · simp only [if_neg hturn] at h
        exact ih _ _ h

/-- The state and environment of the C3 counterexample: a persisted
history headed by a system message, and a completion call that rejects. -/
def stWithHistory : ClientState := ⟨[], true, [sysMsg "old", userMsg "hi"]⟩

def envReject : Env :=
  ⟨fun _ => Except.error (), fun _ => Except.error (), fun _ => ToolOutcome.noClient⟩

/-- Counterexample to C3 as stated: when the completion call fails before
any terminal state, the persisted history is NOT observably unchanged —
the content of its leading system message has been overwritten in place
with the fresh system prompt (the working list's first element aliases
the history's first element). -/
theorem C3_counterexample :
    (processQuery envReject 5 stWithHistory "newPrompt" "q" true).2 =
      Except.error RunErr.completionFailed ∧
    (processQuery envReject 5 stWithHistory "newPrompt" "q" true).1.chatHistory ≠
      stWithHistory.chatHistory ∧
    (processQuery envReject 5 stWithHistory "newPrompt" "q" true).1.chatHistory =
      [sysMsg "newPrompt", userMsg "hi"] := by
  decide

/-- C3 amended: the persisted history becomes the round's working list
exactly on a committing terminal round (history mode on, zero extracted
tool calls); on failure or with history mode off nothing is committed —
but "observably unchanged" holds only up to the in-place overwrite of the
leading system message's content, which happens at round start whenever
history mode is on and the persisted history begins with a system
message, because the shallow-copied working list shares that message
object with the history. -/
theorem C3_amended (env : Env) (fuel : Nat) (st : ClientState) (sys q : String) (uh : Bool)
    (hopen : st.hasOpenAI = true) :
    ((buildMessages st.chatHistory sys q uh).2 =
      if uh = true ∧ st.chatHistory ≠ [] ∧
         (st.chatHistory.headD (userMsg "")).role = Role.system
      then sysMsg sys :: st.chatHistory.tail
      else st.chatHistory) ∧
    (∀ e, (processQuery env fuel st sys q uh).2 = Except.error e →
       (processQuery env fuel st sys q uh).1.chatHistory =
         (buildMessages st.chatHistory sys q uh).2) ∧
    (uh = false →
       (processQuery env fuel st sys q uh).1.chatHistory = st.chatHistory) ∧
    (∀ t, (processQuery env fuel st sys q uh).2 = Except.ok t →
       extractToolUses t = [] ∧
       (uh = true → ∃ ms, (processQuery env fuel st sys q uh).1.chatHistory =
          (buildMessages st.chatHistory sys q uh).1 ++ ms ++ [assistantMsg t])) := by
  have hpq : processQuery env fuel st sys q uh =
      ({ st with chatHistory :=
          (loopB env uh (buildMessages st.chatHistory sys q uh).2 fuel 0 0
            (buildMessages st.chatHistory sys q uh).1).1 },
       (loopB env uh (buildMessages st.chatHistory sys q uh).2 fuel 0 0
          (buildMessages st.chatHistory sys q uh).1).2) := by
    simp [processQuery, hopen]
  refine ⟨?_, ?_, ?_, ?_⟩
  · cases uh with
    | false => simp [buildMessages]
    | true =>
      cases hh : st.chatHistory with
      | nil => simp [buildMessages]
      | cons m restH =>
        by_cases hsysm : m.role = Role.system
        · simp [buildMessages, hsysm]
        · simp [buildMessages, hsysm]
  · intro e he
    rw [hpq] at he ⊢
    exact loopB_hist_error env uh _ fuel 0 0 _ e he
  · intro huh
    subst huh
    rw [hpq]
    have h2 : (buildMessages st.chatHistory sys q false).2 = st.chatHistory := by
      simp [buildMessages]
    simpa [h2] using loopB_hist_false env _ fuel 0 0 _
  · intro t ht
    rw [hpq] at ht ⊢
    cases uh with
    | false =>
      refine ⟨?_, fun h => by cases h⟩
      have := loopB_result_eq_spinB env false
        (buildMessages st.chatHistory sys q false).2 fuel 0 0
        (buildMessages st.chatHistory sys q false).1
      rw [this] at ht
      exact spinB_ok_no_tools env fuel 0 t ht
    | true =>
      obtain ⟨hz, ms, hms⟩ := loopB_hist_ok env _ fuel 0 0 _ t ht
      exact ⟨hz, fun _ => ⟨ms, hms⟩⟩

/-- Witness for C3 at a concrete state: the mid-round history and a
committing terminal round. -/
theorem C3_amended_witness :
    (buildMessages stWithHistory.chatHistory "sys" "q" true).2 =
      sysMsg "sys" :: stWithHistory.chatHistory.tail ∧
    ∃ ms, (processQuery envPlain 1 stWithHistory "sys" "q" true).1.chatHistory =
      (buildMessages stWithHistory.chatHistory "sys" "q" true).1 ++ ms ++
        [assistantMsg "hello"] := by
  have h := C3_amended envPlain 1 stWithHistory "sys" "q" true rfl
  exact ⟨h.1.trans (by decide), (h.2.2.2 "hello" (by decide)).2 rfl⟩

/-- A value the streaming skeleton returns is always a joined fragment
text with zero extracted tool calls. -/
theorem spinS_ok_no_tools (env : Env) :
    ∀ fuel ci t, spinS env fuel ci = Except.ok t → extractToolUses t = [] := by
  intro fuel
  induction fuel with
  | zero => intro ci t h; cases h
  | succ fuel ih =>
    intro ci t h
    simp only [spinS] at h
    cases hc : env.stream ci with
    | error u => rw [hc] at h; cases h
    | ok frags =>
      rw [hc] at h
      by_cases hturn : (extractToolUses (String.join frags)).length = 0
      · simp only [hturn, if_pos rfl] at h
        cases h
        exact List.length_eq_zero.mp hturn
      · simp only [if_neg hturn] at h
        exact ih _ _ h

/-- Environment of the C2 counterexample: the first response requests a
tool whose call fails, the second response is the plain text `final`. -/
def envFailThenDone : Env :=
  ⟨fun i => if i = 0
      then Except.ok "<tool_use><name>t</name><arguments>\x7b\x7d</arguments></tool_use>"
      else Except.ok "final",
   fun i => if i = 0
      then Except.ok ["<tool_use><name>t</name><arguments>\x7b\x7d</arguments></tool_use>"]
      else Except.ok ["final"],
   fun _ => ToolOutcome.errE "Error: boom"⟩

/-- Counterexample to C2 as stated: the error notification is emitted
through the callback, but the string finally returned is exactly the
terminal assistant text `final`, which does not contain the notification
— the error-trail accumulator is overwritten before return. -/
theorem C2_counterexample :
    (processQueryStream envFailThenDone 2 stFresh "sys" "q" true).2.2 =
      Except.ok "final" ∧
    notifText (toolFailMsg "t" "Error: boom") ∈
      (processQueryStream envFailThenDone 2 stFresh "sys" "q" true).2.1 ∧
    ¬ (notifText (toolFailMsg "t" "Error: boom")).toList <:+: "final".toList := by
  decide

/-- C2 amended: a failing dispatched tool call appends the user-role
failure message, emits the formatted error notification via the callback,
and appends the notification to the accumulating `fullResponse` variable
— but the returned string never depends on that accumulator (it is
overwritten with the terminal assistant text, a text from which zero tool
calls are extracted). -/
theorem C2_amended (env : Env) (tu : ToolUse) (rest : List ToolUse)
    (msgs : List MessageContent) (ti : Nat) (fr : String) (ch : List String) (r : String)
    (hname : tu.name ≠ "")
    (hfail : failureRendered tu.name (env.tool ti) = some r) :
    (dispatchS env (tu :: rest) msgs ti fr ch =
      dispatchS env rest (msgs ++ [toolFailMsg tu.name r]) (ti + 1)
        (fr ++ notifText (toolFailMsg tu.name r))
        (ch ++ [notifText (toolFailMsg tu.name r)])) ∧
    (∀ uh mid fuel ci ti' msgs' fr' fr'' ch' ch'',
       (loopS env uh mid fuel ci ti' msgs' fr' ch').2.2 =
         (loopS env uh mid fuel ci ti' msgs' fr'' ch'').2.2) ∧
    (∀ uh mid fuel ci ti' msgs' fr' ch' t,
       (loopS env uh mid fuel ci ti' msgs' fr' ch').2.2 = Except.ok t →
       extractToolUses t = []) := by
  refine ⟨?_, ?_, ?_⟩
  · cases ho : env.tool ti with
    | ok s => rw [ho] at hfail; cases hfail
    | noClient =>
      rw [ho] at hfail
      cases hfail
      simp [dispatchS, hname, ho]
    | errE e =>
      rw [ho] at hfail
      cases hfail
      simp [dispatchS, hname, ho]
  · intro uh mid fuel ci ti' msgs' fr' fr'' ch' ch''
    rw [loopS_result_eq_spinS, loopS_result_eq_spinS]
  · intro uh mid fuel ci ti' msgs' fr' ch' t ht
    rw [loopS_result_eq_spinS] at ht
    exact spinS_ok_no_tools env fuel ci t ht

/-- Witness for C2 at the concrete failing dispatch. -/
theorem C2_amended_witness :
    dispatchS envFailThenDone [⟨"t", ToolArgs.raw ""⟩] [] 0 "" [] =
      dispatchS envFailThenDone [] ([] ++ [toolFailMsg "t" "Error: boom"]) 1
        ("" ++ notifText (toolFailMsg "t" "Error: boom"))
        ([] ++ [notifText (toolFailMsg "t" "Error: boom")]) :=
  (C2_amended envFailThenDone ⟨"t", ToolArgs.raw ""⟩ [] [] 0 "" [] "Error: boom"
    (by decide) (by rfl)).1

/-- Correspondence between the two variants' messages: equal, except that
a successful tool-result message carries a trailing `"\n\n"` on its
serialized-result block in the buffered variant only. -/
def msgRel (mB mS : MessageContent) : Prop :=
  mB = mS ∨ ∃ n s, mB = toolResultMsgB n s ∧ mS = toolResultMsgS n s

theorem msgRel_refl (l : List MessageContent) : List.Forall₂ msgRel l l :=
  List.forall₂_same.mpr (fun _ _ => Or.inl rfl)

/-- The two dispatch loops produce pointwise-related message lists and
the same final dispatch counter from related inputs. -/
theorem dispatch_rel (env : Env) :
    ∀ (tus : List ToolUse) (msB msS : List MessageContent) (ti : Nat)
      (fr : String) (ch : List String),
      List.Forall₂ msgRel msB msS →
      List.Forall₂ msgRel (dispatchB env tus msB ti).1
        (dispatchS env tus msS ti fr ch).1 ∧
      (dispatchB env tus msB ti).2 = (dispatchS env tus msS ti fr ch).2.1 := by
  intro tus
  induction tus with
  | nil => intro msB msS ti fr ch hrel; exact ⟨hrel, rfl⟩
  | cons tu rest ih =>
    intro msB msS ti fr ch hrel
    by_cases hname : tu.name = ""
    · simpa [dispatchB, dispatchS, hname] using ih msB msS ti fr ch hrel
    · cases ho : env.tool ti with
      | ok s =>
        have hrel' : List.Forall₂ msgRel (msB ++ [toolResultMsgB tu.name s])
            (msS ++ [toolResultMsgS tu.name s]) :=
          List.rel_append hrel
            (List.Forall₂.cons (Or.inr ⟨tu.name, s, rfl, rfl⟩) List.Forall₂.nil)
        simpa [dispatchB, dispatchS, hname, ho, outcomeMsgB] using
          ih _ _ (ti + 1) fr (ch ++ [notifText (toolResultMsgS tu.name s)]) hrel'
      | noClient =>
        have hrel' : List.Forall₂ msgRel
            (msB ++ [toolFailMsg tu.name (noClientRendered tu.name)])
            (msS ++ [toolFailMsg tu.name (noClientRendered tu.name)]) :=
          List.rel_append hrel
            (List.Forall₂.cons (Or.inl rfl) List.Forall₂.nil)
        simpa [dispatchB, dispatchS, hname, ho, outcomeMsgB] using
          ih _ _ (ti + 1) (fr ++ notifText (toolFailMsg tu.name (noClientRendered tu.name)))
            (ch ++ [notifText (toolFailMsg tu.name (noClientRendered tu.name))]) hrel'
      | errE r =>
        have hrel' : List.Forall₂ msgRel (msB ++ [toolFailMsg tu.name r])
            (msS ++ [toolFailMsg tu.name r]) :=
          List.rel_append hrel
            (List.Forall₂.cons (Or.inl rfl) List.Forall₂.nil)
        simpa [dispatchB, dispatchS, hname, ho, outcomeMsgB] using
          ih _ _ (ti + 1) (fr ++ notifText (toolFailMsg tu.name r))
            (ch ++ [notifText (toolFailMsg tu.name r)]) hrel'

/-- From related working lists and a coherent environment (each streamed
fragment sequence joins to the corresponding buffered response text), the
two loops return the same result and commit pointwise-related
histories. -/
theorem loop_rel (env : Env) (uh : Bool) (mid : List MessageContent)
    (hc : ∀ i, (env.stream i).map String.join = env.completion i) :
    ∀ fuel ci ti msB msS fr ch, List.Forall₂ msgRel msB msS →
      List.Forall₂ msgRel (loopB env uh mid fuel ci ti msB).1
        (loopS env uh mid fuel ci ti msS fr ch).1 ∧
      (loopB env uh mid fuel ci ti msB).2 =
        (loopS env uh mid fuel ci ti msS fr ch).2.2 := by
  intro fuel
  induction fuel with
  | zero => intro ci ti msB msS fr ch _; exact ⟨msgRel_refl mid, rfl⟩
  | succ fuel ih =>
    intro ci ti msB msS fr ch hrel
    have hci := hc ci
    simp only [loopB, loopS]
    cases hs : env.stream ci with
    | error u =>
      rw [hs] at hci
      rw [← hci]
      exact ⟨msgRel_refl mid, rfl⟩
    | ok frags =>
      rw [hs] at hci
      rw [← hci]
      simp only [Except.map]
      have hrel1 : List.Forall₂ msgRel (msB ++ [assistantMsg (String.join frags)])
          (msS ++ [assistantMsg (String.join frags)]) :=
        List.rel_append hrel (List.Forall₂.cons (Or.inl rfl) List.Forall₂.nil)
      by_cases hturn : (extractToolUses (String.join frags)).length = 0
      · simp only [hturn, if_pos rfl]
        cases uh with
        | false => exact ⟨msgRel_refl mid, rfl⟩
        | true => exact ⟨hrel1, rfl⟩
      · simp only [if_neg hturn]
        obtain ⟨hdrel, hdti⟩ := dispatch_rel env (extractToolUses (String.join frags))
          _ _ ti fr (ch ++ frags.filter (fun c => c ≠ "")) hrel1
        have := ih (ci + 1)
          (dispatchS env (extractToolUses (String.join frags))
            (msS ++ [assistantMsg (String.join frags)]) ti fr
            (ch ++ frags.filter (fun c => c ≠ ""))).2.1
          (dispatchB env (extractToolUses (String.join frags))
            (msB ++ [assistantMsg (String.join frags)]) ti).1
          (dispatchS env (extractToolUses (String.join frags))
            (msS ++ [assistantMsg (String.join frags)]) ti fr
            (ch ++ frags.filter (fun c => c ≠ ""))).1
          (dispatchS env (extractToolUses (String.join frags))
            (msS ++ [assistantMsg (String.join frags)]) ti fr
            (ch ++ frags.filter (fun c => c ≠ ""))).2.2.1
          (dispatchS env (extractToolUses (String.join frags))
            (msS ++ [assistantMsg (String.join frags)]) ti fr
            (ch ++ frags.filter (fun c => c ≠ ""))).2.2.2
          hdrel
        rw [hdti]
        exact this

/-- Environment of the C1 counterexample: one successful tool call, then a
plain terminal response; the streamed fragments join to the buffered
texts. -/
def envOkThenDone : Env :=
  ⟨fun i => if i = 0
      then Except.ok "<tool_use><name>t</name><arguments>\x7b\x7d</arguments></tool_use>"
      else Except.ok "done",
   fun i => if i = 0
      then Except.ok ["<tool_use><name>t</name><arguments>\x7b\x7d</arguments></tool_use>"]
      else Except.ok ["done"],
   fun _ => ToolOutcome.ok "\"r\""⟩

/-- Counterexample to C1 as stated: with identical response texts and tool
outcomes the two variants return the same final text but do NOT append the
same tool-result message — the buffered variant's serialized-result block
carries a trailing `"\n\n"` — so the committed histories differ. -/
theorem C1_counterexample :
    (processQuery envOkThenDone 2 stFresh "sys" "q" true).2 =
      (processQueryStream envOkThenDone 2 stFresh "sys" "q" true).2.2 ∧
    (processQuery envOkThenDone 2 stFresh "sys" "q" true).1.chatHistory ≠
      (processQueryStream envOkThenDone 2 stFresh "sys" "q" true).1.chatHistory ∧
    (processQuery envOkThenDone 2 stFresh "sys" "q" true).1.chatHistory.getD 3
        (userMsg "") = toolResultMsgB "t" "\"r\"" ∧
    (processQueryStream envOkThenDone 2 stFresh "sys" "q" true).1.chatHistory.getD 3
        (userMsg "") = toolResultMsgS "t" "\"r\"" := by
  decide

/-- C1 amended: under the same system prompt, query, history mode and
coherent response environment (each streamed fragment list joins to the
buffered response text), the two variants return identical results
(same terminal condition, same final assistant text, same error) and
commit pointwise-related histories, where corresponding messages are
equal except that a successful tool-result message carries a trailing
`"\n\n"` on its serialized-result block in the buffered variant only;
the client state is otherwise identical. -/
theorem C1_amended (env : Env) (st : ClientState) (sys q : String) (uh : Bool) (fuel : Nat)
    (hc : ∀ i, (env.stream i).map String.join = env.completion i) :
    (processQuery env fuel st sys q uh).2 =
      (processQueryStream env fuel st sys q uh).2.2 ∧
    List.Forall₂ msgRel (processQuery env fuel st sys q uh).1.chatHistory
      (processQueryStream env fuel st sys q uh).1.chatHistory ∧
    (processQuery env fuel st sys q uh).1.hasOpenAI =
      (processQueryStream env fuel st sys q uh).1.hasOpenAI ∧
    (processQuery env fuel st sys q uh).1.mcpConnections =
      (processQueryStream env fuel st sys q uh).1.mcpConnections := by
  by_cases hopen : st.hasOpenAI = false
  · refine ⟨?_, ?_, ?_, ?_⟩ <;>
      simp [processQuery, processQueryStream, hopen, msgRel_refl, msgRel]
  · have h := loop_rel env uh (buildMessages st.chatHistory sys q uh).2 hc fuel 0 0
      (buildMessages st.chatHistory sys q uh).1
      (buildMessages st.chatHistory sys q uh).1 "" []
      (msgRel_refl (buildMessages st.chatHistory sys q uh).1)
    simp only [processQuery, processQueryStream, hopen, if_false]
    exact ⟨h.2, h.1, rfl, rfl⟩

/-- Witness for C1 at a concrete coherent environment. -/
theorem C1_amended_witness :
    (processQuery envOkThenDone 2 stFresh "sys" "q" true).2 =
      (processQueryStream envOkThenDone 2 stFresh "sys" "q" true).2.2 ∧
    List.Forall₂ msgRel (processQuery envOkThenDone 2 stFresh "sys" "q" true).1.chatHistory
      (processQueryStream envOkThenDone 2 stFresh "sys" "q" true).1.chatHistory := by
  have hc : ∀ i, (envOkThenDone.stream i).map String.join = envOkThenDone.completion i := by
    intro i
    by_cases h : i = 0 <;> simp [envOkThenDone, h, Except.map, String.join]
  have h := C1_amended envOkThenDone stFresh "sys" "q" true 2 hc
  exact ⟨h.1, h.2.1⟩
